import Mathlib

/-!
# Wordle Battle client: session variables, guess submission, local statistics

A shallow embedding of `static/game.js`.  The module-level variables, the part of
the DOM the handlers write to, the three `localStorage` items and the messages
sent on the socket are gathered in one record, `World`, and every handler of the
script is a function from `World` to `World`.

Conventions of the embedding:

* `localStorage` is kept by decoded value.  A numeric item is `some n` when the
  stored text is the number `n`, and `none` when the key is absent or its text
  is not a finite number; both read as `0`.  The recent-results item is the
  array `getRecent` decodes, `none` when the key is absent or its text does not
  parse; the script only ever stores arrays under that key.  Writing to
  `localStorage` is taken to succeed.
* A number is a finite IEEE 754 double, `JsNum`, counted in units of
  `2 ^ (-1074)`, the smallest positive double, of which every finite double is
  a whole number.  The sum `getNum(LS_STREAK) + 1` is `jsAdd`, which rounds to
  53 significant bits, ties to even; `Math.max` is `jsMax`.
* `String.prototype.toUpperCase` is a host built-in whose full Unicode table is
  not part of the script; `submitGuess` takes it as the argument `toUpperCase`.
  `upperAscii` is its restriction to ASCII text.
* `new Date().toISOString()` is supplied by the caller as the argument `now`.
* A `TypeError` raised by calling a method on the `null` socket stops the
  handler at that point and is logged in `World.uncaught`.
-/

namespace WordleBattle

/-! ## Data model -/

abbrev UserId := Nat

abbrev Room := String

/-- Messages the client sends on the socket (`socket.emit`). -/
inductive ClientEvent where
  | join_room (room : Option Room)
  | submit_guess (room : Option Room) (guess : String)
  deriving DecidableEq, Repr

/-- One element of the array stored under `wb_recent_results`. -/
structure RecentEntry where
  result : String
  extra : String
  time : String
  deriving DecidableEq, Repr

/-- The two numeric keys, `LS_STREAK` and `LS_BEST_STREAK`. -/
inductive NumKey where
  | LS_STREAK
  | LS_BEST_STREAK
  deriving DecidableEq, Repr

/-- A finite JavaScript number, as a whole number of units of `2 ^ (-1074)`.
Negative and fractional numbers are numbers of units like any other: `-1.5` is
`-(3 * 2 ^ 1073)` units. -/
structure JsNum where
  units : Int
  deriving DecidableEq, Repr

/-- The number 1 in units: `2 ^ 1074`. -/
def oneUnits : Nat := 2 ^ 1074

/-- The JavaScript number of a natural number. -/
def JsNum.ofNat (n : Nat) : JsNum :=
  ⟨((n * oneUnits : Nat) : Int)⟩

/-- Rounding of a magnitude, given in units, to the nearest double: what lies
below the 53 leading bits is dropped, rounding to nearest, ties to even. -/
def roundUnits (x : Nat) : Nat :=
  let shift := (Nat.log2 x + 1) - 53
  let q := x / 2 ^ shift
  let r := x % 2 ^ shift
  if 2 * r < 2 ^ shift then q * 2 ^ shift
  else if 2 * r = 2 ^ shift ∧ q % 2 = 0 then q * 2 ^ shift
  else (q + 1) * 2 ^ shift

/-- The operator `+` on numbers: the exact sum, rounded.  The only sum of the
script is that of a finite number and 1, which is finite. -/
def jsAdd (a b : JsNum) : JsNum :=
  let s := a.units + b.units
  if 0 ≤ s then ⟨(roundUnits s.toNat : Nat)⟩ else ⟨-((roundUnits (-s).toNat : Nat) : Int)⟩

/-- The function `Math.max` on two finite numbers. -/
def jsMax (a b : JsNum) : JsNum :=
  if a.units ≤ b.units then b else a

/-- The three items of `localStorage` the script uses, by decoded value. -/
structure LocalStorage where
  wb_streak : Option JsNum
  wb_best_streak : Option JsNum
  wb_recent_results : Option (List RecentEntry)
  deriving DecidableEq, Repr

/-- A letter box of a feedback row: `className` and `textContent`. -/
structure LetterBox where
  className : String
  textContent : String
  deriving DecidableEq, Repr

/-- A child of the `feedback` element. -/
structure FeedbackRow where
  className : String
  children : List LetterBox
  deriving DecidableEq, Repr

/-- The DOM properties the modelled handlers read or write.  The class list of
the `status` element is split in two: `statusHidden` tells whether it holds
`hidden`, `statusClass` is the rest of it. -/
structure Dom where
  statusText : String
  statusClass : String
  statusHidden : Bool
  scoreP1 : String
  scoreP2 : String
  timerText : String
  timerColor : String
  feedback : List FeedbackRow
  guessInputValue : String
  guessInputDisabled : Bool
  submitGuessDisabled : Bool
  playBtnDisabled : Bool
  authHidden : Bool
  loggedInHidden : Bool
  gameHidden : Bool
  userStatsHidden : Bool
  deriving DecidableEq, Repr

/-- Module-level variables of the script together with its environment. -/
structure World where
  socket : Option Nat
  currentRoom : Option Room
  currentUserId : Option UserId
  isMyTurn : Bool
  isPlayerOne : Option Bool
  localStorage : LocalStorage
  dom : Dom
  emitted : List ClientEvent
  disconnected : List Nat
  timeouts : List Nat
  statsRequests : Nat
  uncaught : List String
  deriving DecidableEq, Repr

/-- Payload of `match_found`; `is_p1` is `none` when the field is not a boolean. -/
structure MatchFound where
  room : Room
  is_p1 : Option Bool
  deriving DecidableEq, Repr

/-- Payload of `score_update`. -/
structure ScoreUpdate where
  p1 : Int
  p2 : Int
  deriving DecidableEq, Repr

/-- Payload of `guess_feedback`. -/
structure GuessFeedback where
  guess : String
  colors : List String
  solved : Bool
  deriving DecidableEq, Repr

/-- The `final_scores` object of `game_over`; a field may be missing. -/
structure FinalScores where
  p1 : Option Int
  p2 : Option Int
  deriving DecidableEq, Repr

/-- Payload of `game_over`; `winner_id` is `none` when it is null.  An absent
`winner_id` passes the same tests of `handleGameOver`, except that it is never
`===` to a null `currentUserId`, which only decides the colour of the notice. -/
structure GameOver where
  final_scores : Option FinalScores
  winner_id : Option UserId
  deriving DecidableEq, Repr

/-! ## Utility functions -/

/-- The function `showStatus(message, type)`. -/
def showStatus (w : World) (message : String) (type : String) : World :=
  { w with dom := { w.dom with
      statusText := message
      statusClass := "status " ++ type
      statusHidden := false } }

/-- The function `hideStatus()`. -/
def hideStatus (w : World) : World :=
  { w with dom := { w.dom with statusHidden := true } }

/-- The function `getNum(key)`: an absent item reads as `0`. -/
def getNum (ls : LocalStorage) (key : NumKey) : JsNum :=
  match key with
  | .LS_STREAK => ls.wb_streak.getD (JsNum.ofNat 0)
  | .LS_BEST_STREAK => ls.wb_best_streak.getD (JsNum.ofNat 0)

/-- The function `setNum(key, n)`. -/
def setNum (ls : LocalStorage) (key : NumKey) (n : JsNum) : LocalStorage :=
  match key with
  | .LS_STREAK => { ls with wb_streak := some n }
  | .LS_BEST_STREAK => { ls with wb_best_streak := some n }

/-- The function `getRecent()`: an absent item decodes as the empty array. -/
def getRecent (ls : LocalStorage) : List RecentEntry :=
  ls.wb_recent_results.getD []

/-- The function `setRecent(arr)`: stores `arr.slice(0, 5)`. -/
def setRecent (ls : LocalStorage) (arr : List RecentEntry) : LocalStorage :=
  { ls with wb_recent_results := some (arr.take 5) }

/-- The function `pushRecent(result, extra)`; `extra || "Multiplayer"` replaces
the empty string, and `now` is the ISO time stamp of the call. -/
def pushRecent (now : String) (ls : LocalStorage) (result : String) (extra : String) :
    LocalStorage :=
  let arr := getRecent ls
  let arr := { result := result
               extra := if extra = "" then "Multiplayer" else extra
               time := now : RecentEntry } :: arr
  setRecent ls arr

/-- The function `loadUserStats()`: issues `GET /stats`; the reply only fills
the `userStats` element. -/
def loadUserStats (w : World) : World :=
  { w with statsRequests := w.statsRequests + 1 }

/-! ## Strings -/

/-- Code points removed by `String.prototype.trim`: WhiteSpace and LineTerminator. -/
def isWhiteSpace (c : Char) : Bool :=
  let n := c.toNat
  n = 0x09 || n = 0x0A || n = 0x0B || n = 0x0C || n = 0x0D || n = 0x20 || n = 0xA0
    || n = 0x1680 || (0x2000 ≤ n && n ≤ 0x200A) || n = 0x2028 || n = 0x2029
    || n = 0x202F || n = 0x205F || n = 0x3000 || n = 0xFEFF

/-- Strip trailing white space from a list of characters. -/
def trimEnd (l : List Char) : List Char :=
  ((l.reverse).dropWhile isWhiteSpace).reverse

/-- The method `trim()`. -/
def trim (s : String) : String :=
  ⟨trimEnd (s.data.dropWhile isWhiteSpace)⟩

/-- Number of UTF-16 code units of a character. -/
def utf16Units (c : Char) : Nat :=
  if c.toNat < 0x10000 then 1 else 2

/-- The property `length` of a JavaScript string (UTF-16 code units). -/
def jsLength (s : String) : Nat :=
  (s.data.map utf16Units).sum

/-- The test `guess.match(/^[A-Z]+$/)` being non-null. -/
def matchUpperAZ (s : String) : Bool :=
  !s.data.isEmpty && s.data.all Char.isUpper

/-- The restriction of `toUpperCase` to ASCII text: `a`-`z` go to `A`-`Z`, every
other character is kept. -/
def upperAscii (s : String) : String :=
  ⟨s.data.map Char.toUpper⟩

/-! ## Handlers -/

/-- The `logout` click handler; `apiOk` tells whether `await api("/logout")`
resolved (otherwise the `catch` branch runs). -/
def logout (apiOk : Bool) (w : World) : World :=
  if apiOk then
    let w := { w with
      disconnected := match w.socket with
        | some s => w.disconnected ++ [s]
        | none => w.disconnected }
    let w := { w with socket := none }
    let w := { w with currentRoom := none }
    let w := { w with currentUserId := none }
    let w := { w with dom := { w.dom with
      authHidden := false
      loggedInHidden := true
      gameHidden := true
      userStatsHidden := true } }
    showStatus w "Logged out successfully" "info"
  else
    showStatus w "Error during logout" "error"

/-- The function `resetGameUI()`. -/
def resetGameUI (w : World) : World :=
  { w with dom := { w.dom with
      scoreP1 := "0"
      scoreP2 := "0"
      timerText := "5:00"
      timerColor := "#667eea"
      feedback := []
      guessInputValue := ""
      guessInputDisabled := false
      submitGuessDisabled := false } }

/-- The `match_found` handler. -/
def on_match_found (w : World) (data : MatchFound) : World :=
  let w := { w with currentRoom := some data.room }
  let w := { w with isPlayerOne := data.is_p1 }
  let w := showStatus w "Match found! Starting game..." "success"
  match w.socket with
  | none => { w with uncaught := w.uncaught ++ ["TypeError"] }
  | some _ =>
    let w := { w with emitted := w.emitted ++ [ClientEvent.join_room w.currentRoom] }
    let w := { w with dom := { w.dom with gameHidden := false, playBtnDisabled := false } }
    resetGameUI w

/-- The `score_update` handler. -/
def on_score_update (w : World) (data : ScoreUpdate) : World :=
  let myScore :=
    if w.isPlayerOne = none then data.p1
    else if w.isPlayerOne = some true then data.p1
    else data.p2
  let oppScore :=
    if w.isPlayerOne = none then data.p2
    else if w.isPlayerOne = some true then data.p2
    else data.p1
  { w with dom := { w.dom with scoreP1 := toString myScore, scoreP2 := toString oppScore } }

/-- The function `submitGuess()`; the input is the value of `guessInput`. -/
def submitGuess (toUpperCase : String → String) (w : World) : World :=
  let guess := toUpperCase (trim w.dom.guessInputValue)
  if jsLength guess ≠ 5 then
    showStatus w "Guess must be 5 letters" "error"
  else if !matchUpperAZ guess then
    showStatus w "Guess must contain only letters" "error"
  else
    match w.socket with
    | none => { w with uncaught := w.uncaught ++ ["TypeError"] }
    | some _ =>
      let w := { w with emitted := w.emitted ++ [ClientEvent.submit_guess w.currentRoom guess] }
      { w with dom := { w.dom with guessInputValue := "" } }

/-- The row built by the `for` loop of `displayGuessFeedback`: one box per
character of the guess, coloured by `colors[i]`. -/
def feedbackRow (data : GuessFeedback) : FeedbackRow :=
  { className := "feedback-row"
    children := (List.range data.guess.data.length).map fun i =>
      { className := "letter-box " ++ (data.colors.getD i "undefined")
        textContent := String.singleton (data.guess.data.getD i ' ') } }

/-- The loop `while (children.length > 6) removeChild(lastChild)`, with one unit
of fuel per child. -/
def removeExcess : Nat → List FeedbackRow → List FeedbackRow
  | 0, rows => rows
  | fuel + 1, rows => if rows.length > 6 then removeExcess fuel rows.dropLast else rows

/-- The function `displayGuessFeedback(data)`. -/
def displayGuessFeedback (w : World) (data : GuessFeedback) : World :=
  let row := feedbackRow data
  let rows := row :: w.dom.feedback
  let rows := removeExcess rows.length rows
  let w := { w with dom := { w.dom with feedback := rows } }
  if data.solved then
    let w := showStatus w "🎉 Correct! +1 point" "success"
    { w with timeouts := w.timeouts ++ [2000] }
  else w

/-- The function `handleGameOver(data)`; `now` is the time stamp `pushRecent`
takes from the clock. -/
def handleGameOver (now : String) (w : World) (data : GameOver) : World :=
  let w := { w with dom := { w.dom with
    guessInputDisabled := true
    submitGuessDisabled := true
    playBtnDisabled := false } }
  let p1Score : Int := (data.final_scores.bind fun fs => fs.p1).getD 0
  let p2Score : Int := (data.final_scores.bind fun fs => fs.p2).getD 0
  let winnerId := data.winner_id
  let myScore :=
    if w.isPlayerOne = some true then p1Score
    else if w.isPlayerOne = some false then p2Score
    else p1Score
  let oppScore :=
    if w.isPlayerOne = some true then p2Score
    else if w.isPlayerOne = some false then p1Score
    else p2Score
  let w := { w with dom := { w.dom with scoreP1 := toString myScore, scoreP2 := toString oppScore } }
  let message :=
    if winnerId = none then "It\x27s a tie!"
    else if w.currentUserId ≠ none ∧ winnerId = w.currentUserId then "You won! Great job!"
    else "You lost. Better luck next time!"
  let w := showStatus w message (if winnerId = w.currentUserId then "success" else "info")
  let didWin : Bool := winnerId ≠ none ∧ w.currentUserId ≠ none ∧ winnerId = w.currentUserId
  let didTie : Bool := winnerId = none
  let extra := "Multiplayer (" ++ toString myScore ++ "-" ++ toString oppScore ++ ")"
  let ls := w.localStorage
  let ls :=
    if didTie then
      pushRecent now ls "TIE" extra
    else if didWin then
      let nextStreak := jsAdd (getNum ls .LS_STREAK) (JsNum.ofNat 1)
      let ls := setNum ls .LS_STREAK nextStreak
      let ls := setNum ls .LS_BEST_STREAK (jsMax (getNum ls .LS_BEST_STREAK) nextStreak)
      pushRecent now ls "WIN" extra
    else
      let ls := setNum ls .LS_STREAK (JsNum.ofNat 0)
      pushRecent now ls "LOSS" extra
  let w := { w with localStorage := ls }
  loadUserStats w

/-! ## Sample states -/

/-- The DOM as the page loads it: the login form shown, everything else hidden. -/
def initialDom : Dom :=
  { statusText := ""
    statusClass := "status"
    statusHidden := true
    scoreP1 := "0"
    scoreP2 := "0"
    timerText := "5:00"
    timerColor := "#667eea"
    feedback := []
    guessInputValue := ""
    guessInputDisabled := false
    submitGuessDisabled := false
    playBtnDisabled := false
    authHidden := false
    loggedInHidden := true
    gameHidden := true
    userStatsHidden := true }

/-- An empty `localStorage`. -/
def emptyStorage : LocalStorage :=
  { wb_streak := none, wb_best_streak := none, wb_recent_results := none }

/-- The state right after the script has loaded. -/
def initialWorld : World :=
  { socket := none
    currentRoom := none
    currentUserId := none
    isMyTurn := true
    isPlayerOne := none
    localStorage := emptyStorage
    dom := initialDom
    emitted := []
    disconnected := []
    timeouts := []
    statsRequests := 0
    uncaught := [] }

/-- The state after user `uid` has logged in and socket `sock` was opened. -/
def loggedInWorld (uid : UserId) (sock : Nat) : World :=
  { initialWorld with
    socket := some sock
    currentUserId := some uid
    dom := { initialDom with authHidden := true, loggedInHidden := false } }

/-- Type `text` into the guess input. -/
def typeGuess (w : World) (text : String) : World :=
  { w with dom := { w.dom with guessInputValue := text } }

/-! ## Vocabulary of the specification -/

/-- The events a handler call sent: what `w2.emitted` has beyond `w1.emitted`. -/
def produced (w1 w2 : World) : List ClientEvent :=
  w2.emitted.drop w1.emitted.length

/-- A notice of type `error` is on display. -/
def errorShown (w : World) : Bool :=
  decide (w.dom.statusClass = "status error") && !w.dom.statusHidden

/-- A valid 5-letter alphabetic guess in the words of the specification:
exactly five characters, each a letter `A`-`Z` in either case. -/
def validGuess (s : String) : Bool :=
  s.data.length = 5 && s.data.all Char.isAlpha

/-- Text made of ASCII characters only. -/
def isAsciiText (s : String) : Bool :=
  s.data.all fun c => c.toNat < 128

/-- What is known of the host `toUpperCase` without its Unicode table: on ASCII
text it is `upperAscii`. -/
def AgreesOnAscii (toUpperCase : String → String) : Prop :=
  ∀ s : String, isAsciiText s = true → toUpperCase s = upperAscii s

/-- The score `p1Score` of `handleGameOver`: `data.final_scores?.p1 || 0`. -/
def p1Score (data : GameOver) : Int :=
  (data.final_scores.bind fun fs => fs.p1).getD 0

/-- The score `p2Score` of `handleGameOver`: `data.final_scores?.p2 || 0`. -/
def p2Score (data : GameOver) : Int :=
  (data.final_scores.bind fun fs => fs.p2).getD 0

/-- The mapping of the specification from the slot scores to the pair
(my score, opponent score): `p1` is mine when I am player one or when my slot
is unknown, `p2` is mine when I am player two. -/
def scoreMapping (isPlayerOne : Option Bool) (p1 p2 : Int) : Int × Int :=
  match isPlayerOne with
  | some true => (p1, p2)
  | some false => (p2, p1)
  | none => (p1, p2)

/-- The outcome of the specification: a tie when there is no winner, a win when
the winner is the local user, a loss otherwise. -/
def recordedOutcome (winner_id currentUserId : Option UserId) : String :=
  if winner_id = none then "TIE"
  else if winner_id = currentUserId then "WIN"
  else "LOSS"

/-- The scores as the specification writes them: `myScore-oppScore`. -/
def scorePair (my opp : Int) : String :=
  toString my ++ "-" ++ toString opp

/-- The text handed to `pushRecent`: the score pair inside `Multiplayer (...)`. -/
def scoreLabel (my opp : Int) : String :=
  "Multiplayer (" ++ scorePair my opp ++ ")"

/-- The two scores on the score board. -/
def displayedScores (w : World) : String × String :=
  (w.dom.scoreP1, w.dom.scoreP2)

/-- The arguments of one `pushRecent` call, with the time of the call. -/
structure PushCall where
  now : String
  result : String
  extra : String
  deriving DecidableEq, Repr

/-- The entry a `pushRecent` call puts in front. -/
def pushedEntry (c : PushCall) : RecentEntry :=
  { result := c.result
    extra := if c.extra = "" then "Multiplayer" else c.extra
    time := c.now }

/-- A sequence of `pushRecent` calls, first call first. -/
def pushAll (ls : LocalStorage) (calls : List PushCall) : LocalStorage :=
  calls.foldl (fun ls c => pushRecent c.now ls c.result c.extra) ls

/-- A sequence of `guess_feedback` events, first event first. -/
def feedbackAll (w : World) (evs : List GuessFeedback) : World :=
  evs.foldl displayGuessFeedback w

/-- The stored (streak, best streak) after each of a sequence of `game_over`
events, first event first. -/
def streakTrace (now : String) : World → List GameOver → List (JsNum × JsNum)
  | _, [] => []
  | w, d :: ds =>
    (getNum (handleGameOver now w d).localStorage .LS_STREAK,
      getNum (handleGameOver now w d).localStorage .LS_BEST_STREAK)
      :: streakTrace now (handleGameOver now w d) ds

/-- User 1 in a match: logged in on socket 0, then `match_found` for `room-1`
as player one. -/
def inMatchWorld : World :=
  on_match_found (loggedInWorld 1 0) { room := "room-1", is_p1 := some true }

/-- The world `inMatchWorld` with a streak of 3 on record. -/
def streakWorld : World :=
  { inMatchWorld with
    localStorage :=
      { wb_streak := some (JsNum.ofNat 3)
        wb_best_streak := some (JsNum.ofNat 3)
        wb_recent_results := some [] } }

/-- The world `inMatchWorld` with streak 0 and best streak 5 on record. -/
def bestFiveWorld : World :=
  { inMatchWorld with
    localStorage :=
      { wb_streak := some (JsNum.ofNat 0)
        wb_best_streak := some (JsNum.ofNat 5)
        wb_recent_results := some [] } }

/-- The world `inMatchWorld` with a streak of `2 ^ 53` on record. -/
def hugeStreakWorld : World :=
  { inMatchWorld with
    localStorage :=
      { wb_streak := some (JsNum.ofNat (2 ^ 53))
        wb_best_streak := some (JsNum.ofNat (2 ^ 53))
        wb_recent_results := some [] } }

/-! ## Characters and strings -/

theorem isUpper_iff (c : Char) : c.isUpper = true ↔ 65 ≤ c.toNat ∧ c.toNat ≤ 90 := by
  simp only [Char.isUpper, Bool.and_eq_true, decide_eq_true_eq, ge_iff_le, Char.toNat]
  rw [UInt32.le_def, UInt32.le_def]
  rfl

theorem isLower_iff (c : Char) : c.isLower = true ↔ 97 ≤ c.toNat ∧ c.toNat ≤ 122 := by
  simp only [Char.isLower, Bool.and_eq_true, decide_eq_true_eq, ge_iff_le, Char.toNat]
  rw [UInt32.le_def, UInt32.le_def]
  rfl

theorem isAlpha_iff (c : Char) :
    c.isAlpha = true ↔ (65 ≤ c.toNat ∧ c.toNat ≤ 90) ∨ (97 ≤ c.toNat ∧ c.toNat ≤ 122) := by
  simp only [Char.isAlpha, Bool.or_eq_true, isUpper_iff, isLower_iff]

theorem toUpper_ascii_table :
    ∀ n : Fin 128, (Char.ofNat n.val).toUpper.isUpper = (Char.ofNat n.val).isAlpha := by
  decide

theorem toUpper_isUpper (c : Char) : c.toUpper.isUpper = c.isAlpha := by
  by_cases h : c.toNat < 128
  · have := toUpper_ascii_table ⟨c.toNat, h⟩
    simpa [Char.ofNat_toNat] using this
  · have h1 : ¬ (c.toNat ≥ 97 ∧ c.toNat ≤ 122) := by omega
    have h2 : c.toUpper = c := by
      unfold Char.toUpper
      simp only [h1, if_false]
    rw [h2]
    have hu : c.isUpper = false := by
      rw [Bool.eq_false_iff]; intro hc; rw [isUpper_iff] at hc; omega
    have hl : c.isLower = false := by
      rw [Bool.eq_false_iff]; intro hc; rw [isLower_iff] at hc; omega
    simp [Char.isAlpha, hu, hl]

theorem mem_trimEnd {l : List Char} {c : Char} (h : c ∈ trimEnd l) : c ∈ l := by
  unfold trimEnd at h
  rw [List.mem_reverse] at h
  have := (List.dropWhile_sublist isWhiteSpace).subset h
  simpa using this

theorem mem_trim {s : String} {c : Char} (h : c ∈ (trim s).data) : c ∈ s.data := by
  unfold trim at h
  exact (List.dropWhile_sublist isWhiteSpace).subset (mem_trimEnd h)

theorem isAsciiText_trim {s : String} (h : isAsciiText s = true) :
    isAsciiText (trim s) = true := by
  unfold isAsciiText at *
  rw [List.all_eq_true] at *
  intro c hc
  exact h c (mem_trim hc)

theorem isAsciiText_of_validGuess {s : String} (h : validGuess s = true) :
    isAsciiText s = true := by
  unfold validGuess at h
  unfold isAsciiText
  rw [Bool.and_eq_true, List.all_eq_true] at h
  rw [List.all_eq_true]
  intro c hc
  have := (isAlpha_iff c).1 (h.2 c hc)
  simp only [decide_eq_true_eq]
  omega

theorem sum_utf16Units_of_upper (l : List Char) (h : ∀ c ∈ l, c.isUpper = true) :
    (l.map utf16Units).sum = l.length := by
  induction l with
  | nil => rfl
  | cons a t ih =>
    have ha := (isUpper_iff a).1 (h a (List.mem_cons_self a t))
    have hu : utf16Units a = 1 := by
      unfold utf16Units
      rw [if_pos (by omega)]
    rw [List.map_cons, List.sum_cons, hu, ih (fun c hc => h c (List.mem_cons_of_mem a hc)),
      List.length_cons]
    omega

/-- On the uppercased text, the two tests of `submitGuess` pass exactly when the
text before uppercasing is a valid guess. -/
theorem tests_upperAscii (t : String) :
    (jsLength (upperAscii t) = 5 ∧ matchUpperAZ (upperAscii t) = true) ↔ validGuess t = true := by
  have key : (∀ c ∈ t.data.map Char.toUpper, c.isUpper = true) ↔ ∀ c ∈ t.data, c.isAlpha = true := by
    constructor
    · intro h c hc
      rw [← toUpper_isUpper]
      exact h _ (List.mem_map_of_mem _ hc)
    · intro h c hc
      obtain ⟨d, hd, rfl⟩ := List.mem_map.1 hc
      rw [toUpper_isUpper]
      exact h d hd
  unfold jsLength matchUpperAZ validGuess upperAscii
  simp only [Bool.and_eq_true, List.all_eq_true, decide_eq_true_eq, Bool.not_eq_true']
  constructor
  · rintro ⟨h5, -, hall⟩
    have := sum_utf16Units_of_upper _ hall
    rw [h5, List.length_map] at this
    exact ⟨this.symm, key.1 hall⟩
  · rintro ⟨h5, hall⟩
    have hall2 := key.2 hall
    have := sum_utf16Units_of_upper _ hall2
    rw [List.length_map, h5] at this
    refine ⟨this, ?_, hall2⟩
    cases hd : t.data with
    | nil => rw [hd] at h5; simp at h5
    | cons a l => rfl

/-! ## Guess submission -/

theorem produced_append (w1 w2 : World) (evs : List ClientEvent)
    (h : w2.emitted = w1.emitted ++ evs) : produced w1 w2 = evs := by
  unfold produced
  rw [h, List.drop_left]

theorem submitGuess_accept (toUpperCase : String → String) (w : World) (sock : Nat)
    (hs : w.socket = some sock)
    (h5 : jsLength (toUpperCase (trim w.dom.guessInputValue)) = 5)
    (hm : matchUpperAZ (toUpperCase (trim w.dom.guessInputValue)) = true) :
    produced w (submitGuess toUpperCase w)
      = [ClientEvent.submit_guess w.currentRoom (toUpperCase (trim w.dom.guessInputValue))] := by
  apply produced_append
  unfold submitGuess
  simp [h5, hm, hs]

theorem submitGuess_reject (toUpperCase : String → String) (w : World)
    (h : ¬ (jsLength (toUpperCase (trim w.dom.guessInputValue)) = 5
        ∧ matchUpperAZ (toUpperCase (trim w.dom.guessInputValue)) = true)) :
    produced w (submitGuess toUpperCase w) = []
      ∧ errorShown (submitGuess toUpperCase w) = true := by
  unfold submitGuess
  by_cases h5 : jsLength (toUpperCase (trim w.dom.guessInputValue)) = 5
  · have hm : matchUpperAZ (toUpperCase (trim w.dom.guessInputValue)) = false := by
      rw [Bool.eq_false_iff]
      exact fun hm => h ⟨h5, hm⟩
    refine ⟨produced_append _ _ _ ?_, ?_⟩
    · simp [h5, hm, showStatus]
    · simp [h5, hm, showStatus, errorShown]
  · refine ⟨produced_append _ _ _ ?_, ?_⟩
    · simp [h5, showStatus]
    · simp [h5, showStatus, errorShown]

theorem submitGuess_no_socket (toUpperCase : String → String) (w : World)
    (hs : w.socket = none) : produced w (submitGuess toUpperCase w) = [] := by
  apply produced_append
  unfold submitGuess
  by_cases h5 : jsLength (toUpperCase (trim w.dom.guessInputValue)) = 5
  · by_cases hm : matchUpperAZ (toUpperCase (trim w.dom.guessInputValue)) = true
    · simp [h5, hm, hs]
    · simp [h5, hm, showStatus]
  · simp [h5, showStatus]

theorem submitGuess_valid (toUpperCase : String → String) (hup : AgreesOnAscii toUpperCase)
    (w : World) (sock : Nat) (hs : w.socket = some sock)
    (hv : validGuess (trim w.dom.guessInputValue) = true) :
    produced w (submitGuess toUpperCase w)
      = [ClientEvent.submit_guess w.currentRoom (upperAscii (trim w.dom.guessInputValue))] := by
  have hu := hup _ (isAsciiText_of_validGuess hv)
  have ht := (tests_upperAscii _).2 hv
  rw [← hu] at ht ⊢
  exact submitGuess_accept toUpperCase w sock hs ht.1 ht.2

theorem agreesOnAscii_upperAscii : AgreesOnAscii upperAscii :=
  fun _ _ => rfl

/-- C1 (amended).  With a live socket: when the typed text, with the white space
around it trimmed, is five letters `A`-`Z` in either case, exactly one
`submit_guess` event is produced and its guess is the trimmed text uppercased;
for every other ASCII text no event is produced and an `error` notice is shown;
and for any text at all, either no event is produced and an `error` notice is
shown, or exactly one event is produced, carrying the uppercased trimmed text,
which is then five letters `A`-`Z`. -/
theorem submitGuess_events (toUpperCase : String → String) (hup : AgreesOnAscii toUpperCase)
    (w : World) (sock : Nat) (hs : w.socket = some sock) :
    (validGuess (trim w.dom.guessInputValue) = true →
        produced w (submitGuess toUpperCase w)
          = [ClientEvent.submit_guess w.currentRoom (upperAscii (trim w.dom.guessInputValue))])
    ∧ (isAsciiText w.dom.guessInputValue = true →
        validGuess (trim w.dom.guessInputValue) = false →
        produced w (submitGuess toUpperCase w) = []
          ∧ errorShown (submitGuess toUpperCase w) = true)
    ∧ ((produced w (submitGuess toUpperCase w) = []
          ∧ errorShown (submitGuess toUpperCase w) = true)
        ∨ (produced w (submitGuess toUpperCase w)
              = [ClientEvent.submit_guess w.currentRoom
                  (toUpperCase (trim w.dom.guessInputValue))]
            ∧ jsLength (toUpperCase (trim w.dom.guessInputValue)) = 5
            ∧ matchUpperAZ (toUpperCase (trim w.dom.guessInputValue)) = true)) := by
  refine ⟨?_, ?_, ?_⟩
  · exact submitGuess_valid toUpperCase hup w sock hs
  · intro ha hv
    apply submitGuess_reject
    rw [hup _ (isAsciiText_trim ha), tests_upperAscii, hv]
    simp
  · by_cases h : jsLength (toUpperCase (trim w.dom.guessInputValue)) = 5
        ∧ matchUpperAZ (toUpperCase (trim w.dom.guessInputValue)) = true
    · exact Or.inr ⟨submitGuess_accept toUpperCase w sock hs h.1 h.2, h.1, h.2⟩
    · exact Or.inl (submitGuess_reject toUpperCase w h)

/-- Witness of `submitGuess_events`: user 1, in the match of `room-1`, types
`Hello`, and then `hi`. -/
theorem submitGuess_events_witness :
    produced (typeGuess inMatchWorld "Hello")
        (submitGuess upperAscii (typeGuess inMatchWorld "Hello"))
      = [ClientEvent.submit_guess (some "room-1") "HELLO"]
    ∧ (produced (typeGuess inMatchWorld "hi")
          (submitGuess upperAscii (typeGuess inMatchWorld "hi")) = []
        ∧ errorShown (submitGuess upperAscii (typeGuess inMatchWorld "hi")) = true) :=
  ⟨(submitGuess_events upperAscii agreesOnAscii_upperAscii
      (typeGuess inMatchWorld "Hello") 0 rfl).1 (by decide),
    (submitGuess_events upperAscii agreesOnAscii_upperAscii
      (typeGuess inMatchWorld "hi") 0 rfl).2.1 (by decide) (by decide)⟩

/-- C1 (counterexample).  The text `hello ` with a trailing blank has six
characters, so it is not a valid 5-letter guess, yet `submitGuess` sends one
`submit_guess` event for it (the guess is trimmed before it is tested). -/
theorem submitGuess_trims_counterexample :
    validGuess "hello " = false
    ∧ produced (typeGuess inMatchWorld "hello ")
        (submitGuess upperAscii (typeGuess inMatchWorld "hello "))
      = [ClientEvent.submit_guess (some "room-1") "HELLO"] := by
  decide

/-! ## Numbers -/

theorem oneUnits_pos : 0 < oneUnits := by
  unfold oneUnits
  positivity

theorem roundUnits_of_dvd (x : Nat) (h : 2 ^ ((Nat.log2 x + 1) - 53) ∣ x) :
    roundUnits x = x := by
  unfold roundUnits
  have hr : x % 2 ^ ((Nat.log2 x + 1) - 53) = 0 := Nat.mod_eq_zero_of_dvd h
  have hpos : 0 < 2 ^ ((Nat.log2 x + 1) - 53) := Nat.two_pow_pos _
  simp only [hr, Nat.mul_zero]
  rw [if_pos hpos]
  exact Nat.div_mul_cancel h

theorem log2_lt_of_lt {x k : Nat} (hx : x ≠ 0) (h : x < 2 ^ k) : Nat.log2 x < k :=
  (Nat.log2_lt hx).2 h

theorem log2_two_pow_lt (k : Nat) : Nat.log2 (2 ^ k) < k + 1 :=
  log2_lt_of_lt (Nat.pos_iff_ne_zero.1 (Nat.two_pow_pos k))
    (Nat.pow_lt_pow_right (by decide) (Nat.lt_succ_self k))

theorem log2_eq {x k : Nat} (h1 : 2 ^ k ≤ x) (h2 : x < 2 ^ (k + 1)) : Nat.log2 x = k := by
  have hx : x ≠ 0 := by
    have : 0 < 2 ^ k := Nat.two_pow_pos k
    omega
  have a := (Nat.log2_lt hx).2 h2
  have b : ¬ Nat.log2 x < k := fun hlt => by
    have := (Nat.log2_lt hx).1 hlt
    omega
  omega

/-- A natural number up to `2 ^ 53` is a double: rounding leaves it as it is. -/
theorem roundUnits_small (m : Nat) (hm : m ≤ 2 ^ 53) :
    roundUnits (m * oneUnits) = m * oneUnits := by
  apply roundUnits_of_dvd
  rcases Nat.eq_zero_or_pos m with h0 | hpos
  · subst h0
    rw [Nat.zero_mul]
    exact Nat.dvd_zero _
  · have hx : m * oneUnits ≠ 0 :=
      Nat.mul_ne_zero (by omega) (Nat.pos_iff_ne_zero.1 oneUnits_pos)
    rcases Nat.lt_or_ge m (2 ^ 53) with hlt | hge
    · have hlog : Nat.log2 (m * oneUnits) < 1127 := by
        apply log2_lt_of_lt hx
        calc m * oneUnits < 2 ^ 53 * oneUnits := Nat.mul_lt_mul_of_pos_right hlt oneUnits_pos
          _ = 2 ^ 1127 := by unfold oneUnits; rw [← pow_add]
      have hs : (Nat.log2 (m * oneUnits) + 1) - 53 ≤ 1074 := by omega
      exact Dvd.dvd.mul_left (pow_dvd_pow 2 hs) m
    · have hm2 : m = 2 ^ 53 := le_antisymm hm hge
      have he : m * oneUnits = 2 ^ 1127 := by rw [hm2]; unfold oneUnits; rw [← pow_add]
      have hlog : Nat.log2 (m * oneUnits) < 1128 := by
        rw [he]
        have := log2_two_pow_lt 1127
        omega
      have hs : (Nat.log2 (m * oneUnits) + 1) - 53 ≤ 1127 := by omega
      have hd := pow_dvd_pow 2 hs
      rw [← he] at hd
      exact hd

/-- Sums of naturals up to `2 ^ 53` are exact. -/
theorem jsAdd_ofNat (a b : Nat) (h : a + b ≤ 2 ^ 53) :
    jsAdd (JsNum.ofNat a) (JsNum.ofNat b) = JsNum.ofNat (a + b) := by
  unfold jsAdd JsNum.ofNat
  have h1 : ((a * oneUnits : Nat) : Int) + ((b * oneUnits : Nat) : Int)
      = (((a + b) * oneUnits : Nat) : Int) := by
    rw [Nat.add_mul, Nat.cast_add]
  simp only [h1]
  rw [if_pos (Int.ofNat_nonneg _), Int.toNat_ofNat, roundUnits_small _ h]

/-- The number `2 ^ 53 + 1` lies half way between two doubles and rounds to the
even one, `2 ^ 53`. -/
theorem roundUnits_tie : roundUnits ((2 ^ 53 + 1) * oneUnits) = 2 ^ 53 * oneUnits := by
  have hlog : Nat.log2 ((2 ^ 53 + 1) * oneUnits) = 1127 := by
    apply log2_eq
    · unfold oneUnits; norm_num
    · unfold oneUnits; norm_num
  unfold roundUnits
  rw [hlog]
  unfold oneUnits
  norm_num

theorem jsAdd_two_pow_53 :
    jsAdd (JsNum.ofNat (2 ^ 53)) (JsNum.ofNat 1) = JsNum.ofNat (2 ^ 53) := by
  unfold jsAdd JsNum.ofNat
  have h1 : ((2 ^ 53 * oneUnits : Nat) : Int) + ((1 * oneUnits : Nat) : Int)
      = (((2 ^ 53 + 1) * oneUnits : Nat) : Int) := by
    rw [Nat.add_mul, Nat.cast_add]
  simp only [h1]
  rw [if_pos (Int.ofNat_nonneg _), Int.toNat_ofNat, roundUnits_tie]

theorem ofNat_units_le (a b : Nat) :
    (JsNum.ofNat a).units ≤ (JsNum.ofNat b).units ↔ a ≤ b := by
  unfold JsNum.ofNat
  simp only [Nat.cast_le]
  constructor
  · exact fun h => Nat.le_of_mul_le_mul_right h oneUnits_pos
  · exact fun h => Nat.mul_le_mul_right _ h

theorem ofNat_injective {a b : Nat} (h : JsNum.ofNat a = JsNum.ofNat b) : a = b := by
  have h1 := (ofNat_units_le a b).1 (le_of_eq (congrArg JsNum.units h))
  have h2 := (ofNat_units_le b a).1 (le_of_eq (congrArg JsNum.units h.symm))
  omega

theorem jsMax_ofNat (a b : Nat) :
    jsMax (JsNum.ofNat a) (JsNum.ofNat b) = JsNum.ofNat (max a b) := by
  unfold jsMax
  by_cases h : a ≤ b
  · rw [if_pos ((ofNat_units_le a b).2 h), max_eq_right h]
  · rw [if_neg (fun hc => h ((ofNat_units_le a b).1 hc)), max_eq_left (by omega)]

theorem le_jsMax_left (a b : JsNum) : a.units ≤ (jsMax a b).units := by
  unfold jsMax
  split
  · assumption
  · exact le_refl _

theorem jsMax_assoc (a b c : JsNum) : jsMax (jsMax a b) c = jsMax a (jsMax b c) := by
  unfold jsMax
  split_ifs <;> first | rfl | omega

theorem jsMax_eq_right_iff (a b : JsNum) : jsMax a b = b ↔ a.units ≤ b.units := by
  unfold jsMax
  constructor
  · intro h
    split at h
    · assumption
    · rw [h]
  · intro h
    rw [if_pos h]

/-! ## Local statistics -/

theorem take_append_take {α : Type} (n : Nat) (r l : List α) :
    (r ++ l.take n).take n = (r ++ l).take n := by
  rw [List.take_append_eq_append_take, List.take_append_eq_append_take, List.take_take]
  congr 2
  omega

theorem foldl_cons_take {α β : Type} (n : Nat) (f : α → β) (xs : List α) (x : α)
    (old : List β) :
    (xs ++ [x]).foldl (fun acc a => (f a :: acc).take n) old
      = (((xs ++ [x]).map f).reverse ++ old).take n := by
  induction xs generalizing old with
  | nil => simp
  | cons y ys ih =>
    rw [List.cons_append, List.foldl_cons, ih]
    have h := take_append_take n (((ys ++ [x]).map f).reverse) (f y :: old)
    rw [h]
    simp

theorem getRecent_pushRecent (now : String) (ls : LocalStorage) (result extra : String) :
    getRecent (pushRecent now ls result extra)
      = (pushedEntry { now := now, result := result, extra := extra } :: getRecent ls).take 5 := by
  rfl

theorem getNum_pushRecent (now : String) (ls : LocalStorage) (result extra : String)
    (key : NumKey) : getNum (pushRecent now ls result extra) key = getNum ls key := by
  cases key <;> rfl

theorem getRecent_setNum (ls : LocalStorage) (key : NumKey) (n : JsNum) :
    getRecent (setNum ls key n) = getRecent ls := by
  cases key <;> rfl

theorem getRecent_pushAll (ls : LocalStorage) (calls : List PushCall) :
    getRecent (pushAll ls calls)
      = calls.foldl (fun acc c => (pushedEntry c :: acc).take 5) (getRecent ls) := by
  induction calls generalizing ls with
  | nil => rfl
  | cons c cs ih =>
    unfold pushAll at ih ⊢
    rw [List.foldl_cons, List.foldl_cons, ih, getRecent_pushRecent]

theorem scoreLabel_ne_empty (my opp : Int) : scoreLabel my opp ≠ "" := by
  intro h
  have := congrArg String.data h
  simp [scoreLabel, String.data_append] at this

theorem handleGameOver_localStorage (now : String) (w : World) (data : GameOver) :
    (handleGameOver now w data).localStorage =
      (if data.winner_id = none then
        pushRecent now w.localStorage "TIE"
          (scoreLabel (scoreMapping w.isPlayerOne (p1Score data) (p2Score data)).1
            (scoreMapping w.isPlayerOne (p1Score data) (p2Score data)).2)
      else if data.winner_id = w.currentUserId then
        pushRecent now
          (setNum
            (setNum w.localStorage .LS_STREAK
              (jsAdd (getNum w.localStorage .LS_STREAK) (JsNum.ofNat 1)))
            .LS_BEST_STREAK
            (jsMax (getNum w.localStorage .LS_BEST_STREAK)
              (jsAdd (getNum w.localStorage .LS_STREAK) (JsNum.ofNat 1))))
          "WIN"
          (scoreLabel (scoreMapping w.isPlayerOne (p1Score data) (p2Score data)).1
            (scoreMapping w.isPlayerOne (p1Score data) (p2Score data)).2)
      else
        pushRecent now (setNum w.localStorage .LS_STREAK (JsNum.ofNat 0)) "LOSS"
          (scoreLabel (scoreMapping w.isPlayerOne (p1Score data) (p2Score data)).1
            (scoreMapping w.isPlayerOne (p1Score data) (p2Score data)).2)) := by
  rcases w with ⟨so, cr, cu, mt, ipo, ls, dom, em, di, ti, sr, un⟩
  rcases data with ⟨fs, wid⟩
  cases wid with
  | none =>
    rcases ipo with _ | _ | _ <;>
    simp [handleGameOver, loadUserStats, showStatus, scoreMapping, p1Score, p2Score,
      scoreLabel, scorePair, String.append_assoc]
  | some x =>
    cases cu with
    | none =>
      rcases ipo with _ | _ | _ <;>
      simp [handleGameOver, loadUserStats, showStatus, scoreMapping, p1Score, p2Score,
        scoreLabel, scorePair, String.append_assoc]
    | some u =>
      by_cases hxu : x = u
      · rcases ipo with _ | _ | _ <;>
        simp [handleGameOver, loadUserStats, showStatus, scoreMapping, p1Score, p2Score,
          scoreLabel, scorePair, hxu, getNum, setNum, String.append_assoc]
      · rcases ipo with _ | _ | _ <;>
        simp [handleGameOver, loadUserStats, showStatus, scoreMapping, p1Score, p2Score,
          scoreLabel, scorePair, hxu, String.append_assoc]

theorem handleGameOver_session (now : String) (w : World) (data : GameOver) :
    (handleGameOver now w data).currentUserId = w.currentUserId
    ∧ (handleGameOver now w data).currentRoom = w.currentRoom
    ∧ (handleGameOver now w data).isPlayerOne = w.isPlayerOne
    ∧ (handleGameOver now w data).socket = w.socket :=
  ⟨rfl, rfl, rfl, rfl⟩

theorem streak_tie (now : String) (w : World) (data : GameOver) (h : data.winner_id = none) :
    getNum (handleGameOver now w data).localStorage .LS_STREAK
        = getNum w.localStorage .LS_STREAK
    ∧ getNum (handleGameOver now w data).localStorage .LS_BEST_STREAK
        = getNum w.localStorage .LS_BEST_STREAK := by
  rw [handleGameOver_localStorage, if_pos h, getNum_pushRecent, getNum_pushRecent]
  exact ⟨rfl, rfl⟩

theorem streak_win (now : String) (w : World) (data : GameOver) (h : data.winner_id ≠ none)
    (hw : data.winner_id = w.currentUserId) :
    getNum (handleGameOver now w data).localStorage .LS_STREAK
        = jsAdd (getNum w.localStorage .LS_STREAK) (JsNum.ofNat 1)
    ∧ getNum (handleGameOver now w data).localStorage .LS_BEST_STREAK
        = jsMax (getNum w.localStorage .LS_BEST_STREAK)
            (jsAdd (getNum w.localStorage .LS_STREAK) (JsNum.ofNat 1)) := by
  rw [handleGameOver_localStorage, if_neg h, if_pos hw, getNum_pushRecent, getNum_pushRecent]
  exact ⟨rfl, rfl⟩

theorem streak_loss (now : String) (w : World) (data : GameOver) (h : data.winner_id ≠ none)
    (hw : data.winner_id ≠ w.currentUserId) :
    getNum (handleGameOver now w data).localStorage .LS_STREAK = JsNum.ofNat 0
    ∧ getNum (handleGameOver now w data).localStorage .LS_BEST_STREAK
        = getNum w.localStorage .LS_BEST_STREAK := by
  rw [handleGameOver_localStorage, if_neg h, if_neg hw, getNum_pushRecent, getNum_pushRecent]
  exact ⟨rfl, rfl⟩

theorem best_streak_mono (now : String) (w : World) (data : GameOver) :
    (getNum w.localStorage .LS_BEST_STREAK).units
      ≤ (getNum (handleGameOver now w data).localStorage .LS_BEST_STREAK).units := by
  by_cases h : data.winner_id = none
  · rw [(streak_tie now w data h).2]
  · by_cases hw : data.winner_id = w.currentUserId
    · rw [(streak_win now w data h hw).2]
      exact le_jsMax_left _ _
    · rw [(streak_loss now w data h hw).2]

theorem getRecent_handleGameOver (now : String) (w : World) (data : GameOver) :
    getRecent (handleGameOver now w data).localStorage
      = ({ result := recordedOutcome data.winner_id w.currentUserId
           extra := scoreLabel (scoreMapping w.isPlayerOne (p1Score data) (p2Score data)).1
                      (scoreMapping w.isPlayerOne (p1Score data) (p2Score data)).2
           time := now } :: getRecent w.localStorage).take 5 := by
  rw [handleGameOver_localStorage]
  by_cases h : data.winner_id = none
  · rw [if_pos h, getRecent_pushRecent]
    simp [pushedEntry, scoreLabel_ne_empty, recordedOutcome, h]
  · by_cases hw : data.winner_id = w.currentUserId
    · rw [if_neg h, if_pos hw, getRecent_pushRecent, getRecent_setNum, getRecent_setNum]
      have h2 : ¬ w.currentUserId = none := hw ▸ h
      simp [pushedEntry, scoreLabel_ne_empty, recordedOutcome, h2, hw]
    · rw [if_neg h, if_neg hw, getRecent_pushRecent, getRecent_setNum]
      simp [pushedEntry, scoreLabel_ne_empty, recordedOutcome, h, hw]

theorem streakTrace_win_win_loss_tie (now : String) (w : World) (u v : UserId)
    (f1 f2 f3 f4 : Option FinalScores) (hu : w.currentUserId = some u) (hv : v ≠ u)
    (hs : getNum w.localStorage .LS_STREAK = JsNum.ofNat 0) :
    streakTrace now w
        [{ final_scores := f1, winner_id := some u }, { final_scores := f2, winner_id := some u },
          { final_scores := f3, winner_id := some v }, { final_scores := f4, winner_id := none }]
      = [(JsNum.ofNat 1, jsMax (getNum w.localStorage .LS_BEST_STREAK) (JsNum.ofNat 1)),
          (JsNum.ofNat 2, jsMax (getNum w.localStorage .LS_BEST_STREAK) (JsNum.ofNat 2)),
          (JsNum.ofNat 0, jsMax (getNum w.localStorage .LS_BEST_STREAK) (JsNum.ofNat 2)),
          (JsNum.ofNat 0, jsMax (getNum w.localStorage .LS_BEST_STREAK) (JsNum.ofNat 2))] := by
  have hne : ∀ x : UserId, (some x : Option UserId) ≠ none := fun x => by simp
  have h1 := streak_win now w { final_scores := f1, winner_id := some u } (hne u) hu.symm
  have h2 := streak_win now (handleGameOver now w { final_scores := f1, winner_id := some u })
    { final_scores := f2, winner_id := some u } (hne u) hu.symm
  have h3 := streak_loss now
    (handleGameOver now (handleGameOver now w { final_scores := f1, winner_id := some u })
      { final_scores := f2, winner_id := some u })
    { final_scores := f3, winner_id := some v } (hne v)
    (by
      show some v ≠ w.currentUserId
      rw [hu]
      simpa using hv)
  have h4 := streak_tie now
    (handleGameOver now
      (handleGameOver now (handleGameOver now w { final_scores := f1, winner_id := some u })
        { final_scores := f2, winner_id := some u })
      { final_scores := f3, winner_id := some v })
    { final_scores := f4, winner_id := none } rfl
  have e1 : jsAdd (JsNum.ofNat 0) (JsNum.ofNat 1) = JsNum.ofNat 1 :=
    jsAdd_ofNat 0 1 (by norm_num)
  have e2 : jsAdd (JsNum.ofNat 1) (JsNum.ofNat 1) = JsNum.ofNat 2 :=
    jsAdd_ofNat 1 1 (by norm_num)
  have e3 : jsMax (JsNum.ofNat 1) (JsNum.ofNat 2) = JsNum.ofNat 2 := jsMax_ofNat 1 2
  simp only [streakTrace]
  rw [h4.1, h4.2, h3.1, h3.2, h2.1, h2.2, h1.1, h1.2, hs, e1, e2, jsMax_assoc, e3]

/-- C2 (amended).  For every stored streak `s` and best streak `b`, any finite
numbers, and every `game_over` event: on a tie both stay; on a win the streak
becomes the double nearest to `s + 1`, which is `s + 1` itself when `s` is a
natural number below `2 ^ 53`, and the best streak becomes the larger of `b` and
the new streak; on a loss the streak becomes 0 and the best streak stays `b`;
the best streak never decreases.  From streak 0 the sequence win, win, loss, tie
gives the streaks 1, 2, 0, 0 and the best streaks `max b 1`, `max b 2`,
`max b 2`, `max b 2`, so that the best streak at the end is 2 exactly when `b`
was at most 2. -/
theorem handleGameOver_streak (now : String) (w : World) (data : GameOver) :
    (data.winner_id = none →
        getNum (handleGameOver now w data).localStorage .LS_STREAK
            = getNum w.localStorage .LS_STREAK
        ∧ getNum (handleGameOver now w data).localStorage .LS_BEST_STREAK
            = getNum w.localStorage .LS_BEST_STREAK)
    ∧ (data.winner_id ≠ none → data.winner_id = w.currentUserId →
        getNum (handleGameOver now w data).localStorage .LS_STREAK
            = jsAdd (getNum w.localStorage .LS_STREAK) (JsNum.ofNat 1)
        ∧ getNum (handleGameOver now w data).localStorage .LS_BEST_STREAK
            = jsMax (getNum w.localStorage .LS_BEST_STREAK)
                (jsAdd (getNum w.localStorage .LS_STREAK) (JsNum.ofNat 1)))
    ∧ (∀ n : Nat, n < 2 ^ 53 → getNum w.localStorage .LS_STREAK = JsNum.ofNat n →
        data.winner_id ≠ none → data.winner_id = w.currentUserId →
        getNum (handleGameOver now w data).localStorage .LS_STREAK = JsNum.ofNat (n + 1)
        ∧ getNum (handleGameOver now w data).localStorage .LS_BEST_STREAK
            = jsMax (getNum w.localStorage .LS_BEST_STREAK) (JsNum.ofNat (n + 1))
        ∧ ∀ m : Nat, getNum w.localStorage .LS_BEST_STREAK = JsNum.ofNat m →
            getNum (handleGameOver now w data).localStorage .LS_BEST_STREAK
              = JsNum.ofNat (max m (n + 1)))
    ∧ (data.winner_id ≠ none → data.winner_id ≠ w.currentUserId →
        getNum (handleGameOver now w data).localStorage .LS_STREAK = JsNum.ofNat 0
        ∧ getNum (handleGameOver now w data).localStorage .LS_BEST_STREAK
            = getNum w.localStorage .LS_BEST_STREAK)
    ∧ (getNum w.localStorage .LS_BEST_STREAK).units
        ≤ (getNum (handleGameOver now w data).localStorage .LS_BEST_STREAK).units
    ∧ (∀ (u v : UserId) (f1 f2 f3 f4 : Option FinalScores),
        w.currentUserId = some u → v ≠ u →
        getNum w.localStorage .LS_STREAK = JsNum.ofNat 0 →
        streakTrace now w
            [{ final_scores := f1, winner_id := some u }, { final_scores := f2, winner_id := some u },
              { final_scores := f3, winner_id := some v }, { final_scores := f4, winner_id := none }]
          = [(JsNum.ofNat 1, jsMax (getNum w.localStorage .LS_BEST_STREAK) (JsNum.ofNat 1)),
              (JsNum.ofNat 2, jsMax (getNum w.localStorage .LS_BEST_STREAK) (JsNum.ofNat 2)),
              (JsNum.ofNat 0, jsMax (getNum w.localStorage .LS_BEST_STREAK) (JsNum.ofNat 2)),
              (JsNum.ofNat 0, jsMax (getNum w.localStorage .LS_BEST_STREAK) (JsNum.ofNat 2))]
          ∧ (jsMax (getNum w.localStorage .LS_BEST_STREAK) (JsNum.ofNat 2) = JsNum.ofNat 2
              ↔ (getNum w.localStorage .LS_BEST_STREAK).units ≤ (JsNum.ofNat 2).units)) := by
  refine ⟨streak_tie now w data, streak_win now w data, ?_, streak_loss now w data,
    best_streak_mono now w data, ?_⟩
  · intro n hn hs h hw
    have hwin := streak_win now w data h hw
    have e : jsAdd (JsNum.ofNat n) (JsNum.ofNat 1) = JsNum.ofNat (n + 1) :=
      jsAdd_ofNat n 1 (by omega)
    rw [hs, e] at hwin
    refine ⟨hwin.1, hwin.2, fun m hm => ?_⟩
    rw [hwin.2, hm, jsMax_ofNat]
  · intro u v f1 f2 f3 f4 hu hv hs
    exact ⟨streakTrace_win_win_loss_tie now w u v f1 f2 f3 f4 hu hv hs, jsMax_eq_right_iff _ _⟩

/-- Witness of `handleGameOver_streak`: user 1 with a streak of 3 ties, wins and
loses; and from an empty store user 1 wins twice, loses to user 2, then ties. -/
theorem handleGameOver_streak_witness :
    (getNum (handleGameOver "t" streakWorld { final_scores := none, winner_id := none }).localStorage
          .LS_STREAK = getNum streakWorld.localStorage .LS_STREAK)
    ∧ (getNum (handleGameOver "t" streakWorld { final_scores := none, winner_id := some 1 }).localStorage
          .LS_STREAK = JsNum.ofNat (3 + 1))
    ∧ (getNum (handleGameOver "t" streakWorld { final_scores := none, winner_id := some 2 }).localStorage
          .LS_STREAK = JsNum.ofNat 0)
    ∧ streakTrace "t" inMatchWorld
        [{ final_scores := none, winner_id := some 1 }, { final_scores := none, winner_id := some 1 },
          { final_scores := none, winner_id := some 2 }, { final_scores := none, winner_id := none }]
      = [(JsNum.ofNat 1, jsMax (getNum inMatchWorld.localStorage .LS_BEST_STREAK) (JsNum.ofNat 1)),
          (JsNum.ofNat 2, jsMax (getNum inMatchWorld.localStorage .LS_BEST_STREAK) (JsNum.ofNat 2)),
          (JsNum.ofNat 0, jsMax (getNum inMatchWorld.localStorage .LS_BEST_STREAK) (JsNum.ofNat 2)),
          (JsNum.ofNat 0, jsMax (getNum inMatchWorld.localStorage .LS_BEST_STREAK) (JsNum.ofNat 2))] :=
  ⟨((handleGameOver_streak "t" streakWorld { final_scores := none, winner_id := none }).1 rfl).1,
    ((handleGameOver_streak "t" streakWorld { final_scores := none, winner_id := some 1 }).2.2.1
      3 (by decide) rfl (by decide) rfl).1,
    ((handleGameOver_streak "t" streakWorld { final_scores := none, winner_id := some 2 }).2.2.2.1
      (by decide) (by decide)).1,
    ((handleGameOver_streak "t" inMatchWorld { final_scores := none, winner_id := none }).2.2.2.2.2
      1 2 none none none none rfl (by decide) rfl).1⟩

/-- C2 (counterexample).  With streak 0 and best streak 5 on record, the
sequence win, win, loss, tie ends with best streak 5, not 2; and with a streak
of `2 ^ 53` on record a win leaves the streak at `2 ^ 53`, not `2 ^ 53 + 1`. -/
theorem best_streak_not_two_counterexample :
    getNum bestFiveWorld.localStorage .LS_STREAK = JsNum.ofNat 0
    ∧ streakTrace "t" bestFiveWorld
        [{ final_scores := none, winner_id := some 1 }, { final_scores := none, winner_id := some 1 },
          { final_scores := none, winner_id := some 2 }, { final_scores := none, winner_id := none }]
      = [(JsNum.ofNat 1, JsNum.ofNat 5), (JsNum.ofNat 2, JsNum.ofNat 5),
          (JsNum.ofNat 0, JsNum.ofNat 5), (JsNum.ofNat 0, JsNum.ofNat 5)]
    ∧ JsNum.ofNat 5 ≠ JsNum.ofNat 2
    ∧ getNum hugeStreakWorld.localStorage .LS_STREAK = JsNum.ofNat (2 ^ 53)
    ∧ getNum (handleGameOver "t" hugeStreakWorld
        { final_scores := none, winner_id := some 1 }).localStorage .LS_STREAK
      = JsNum.ofNat (2 ^ 53)
    ∧ JsNum.ofNat (2 ^ 53) ≠ JsNum.ofNat (2 ^ 53 + 1) := by
  refine ⟨rfl, ?_, ?_, rfl, ?_, ?_⟩
  · have h := streakTrace_win_win_loss_tie "t" bestFiveWorld 1 2 none none none none rfl
      (by decide) rfl
    have hb : getNum bestFiveWorld.localStorage .LS_BEST_STREAK = JsNum.ofNat 5 := rfl
    rw [hb, jsMax_ofNat, jsMax_ofNat] at h
    exact h
  · intro h
    have := ofNat_injective h
    omega
  · have h := (streak_win "t" hugeStreakWorld { final_scores := none, winner_id := some 1 }
      (by decide) rfl).1
    have hs : getNum hugeStreakWorld.localStorage .LS_STREAK = JsNum.ofNat (2 ^ 53) := rfl
    rw [hs, jsAdd_two_pow_53] at h
    exact h
  · intro h
    have := ofNat_injective h
    omega

/-- C3.  Every `game_over` event puts exactly one entry in front of the
recent-results list (which is then cut to five): its outcome is `TIE` when there
is no winner, whatever the scores and the local user, `WIN` when the winner is
the local user and `LOSS` otherwise, and its text is `Multiplayer (` followed by
the final scores as `myScore-oppScore` and `)`. -/
theorem handleGameOver_records (now : String) (w : World) (data : GameOver) :
    getRecent (handleGameOver now w data).localStorage
        = ({ result := recordedOutcome data.winner_id w.currentUserId
             extra := scoreLabel (scoreMapping w.isPlayerOne (p1Score data) (p2Score data)).1
                        (scoreMapping w.isPlayerOne (p1Score data) (p2Score data)).2
             time := now } :: getRecent w.localStorage).take 5
    ∧ getRecent (handleGameOver now w data).localStorage
        = { result := recordedOutcome data.winner_id w.currentUserId
            extra := scoreLabel (scoreMapping w.isPlayerOne (p1Score data) (p2Score data)).1
                        (scoreMapping w.isPlayerOne (p1Score data) (p2Score data)).2
            time := now } :: (getRecent w.localStorage).take 4
    ∧ (∀ (fs : Option FinalScores) (uid : Option UserId) (ipo : Option Bool),
        ((getRecent (handleGameOver now { w with currentUserId := uid, isPlayerOne := ipo }
            { final_scores := fs, winner_id := none }).localStorage).head?).map RecentEntry.result
          = some "TIE")
    ∧ (∀ x : UserId, recordedOutcome (some x) (some x) = "WIN")
    ∧ (∀ (x : UserId) (uid : Option UserId), uid ≠ some x → recordedOutcome (some x) uid = "LOSS")
    ∧ (∀ my opp : Int, scoreLabel my opp = "Multiplayer (" ++ scorePair my opp ++ ")"
        ∧ scorePair my opp = toString my ++ "-" ++ toString opp) := by
  have key := getRecent_handleGameOver now
  refine ⟨key w data, ?_, ?_, ?_, ?_, ?_⟩
  · rw [key w data]
    rfl
  · intro fs uid ipo
    rw [key]
    simp [recordedOutcome]
  · intro x
    simp [recordedOutcome]
  · intro x uid hx
    have : ¬ (some x = uid) := fun h => hx h.symm
    simp [recordedOutcome, this]
  · intro my opp
    exact ⟨rfl, rfl⟩

/-- Witness of `handleGameOver_records`: user 1, player one, loses 1-3 to user 2. -/
theorem handleGameOver_records_witness :
    getRecent (handleGameOver "t" inMatchWorld
        { final_scores := some { p1 := some 1, p2 := some 3 }, winner_id := some 2 }).localStorage
      = [{ result := "LOSS", extra := "Multiplayer (1-3)", time := "t" }]
    ∧ recordedOutcome (some 2) (some 1) = "LOSS" :=
  ⟨(handleGameOver_records "t" inMatchWorld
      { final_scores := some { p1 := some 1, p2 := some 3 }, winner_id := some 2 }).1,
    (handleGameOver_records "t" inMatchWorld
      { final_scores := some { p1 := some 1, p2 := some 3 }, winner_id := some 2 }).2.2.2.2.1
      2 (some 1) (by decide)⟩

/-- C4.  After every `pushRecent` call the stored list has at most five entries,
the new entry is first, and behind it come the previous entries in their order,
cut from the back; after any sequence of calls the list is the called entries,
newest first, followed by the old ones, cut to five.  Six calls on an empty
store leave the entries of calls 6, 5, 4, 3, 2, and the entry of call 1 is gone. -/
theorem pushRecent_keeps_five (ls : LocalStorage) (cs : List PushCall) (c : PushCall) :
    (getRecent (pushAll ls (cs ++ [c]))).length ≤ 5
    ∧ (getRecent (pushAll ls (cs ++ [c]))).head? = some (pushedEntry c)
    ∧ getRecent (pushAll ls (cs ++ [c]))
        = pushedEntry c :: (getRecent (pushAll ls cs)).take 4
    ∧ getRecent (pushAll ls (cs ++ [c]))
        = (((cs ++ [c]).map pushedEntry).reverse ++ getRecent ls).take 5
    ∧ (∀ c1 c2 c3 c4 c5 c6 : PushCall,
        getRecent (pushAll emptyStorage [c1, c2, c3, c4, c5, c6])
          = [pushedEntry c6, pushedEntry c5, pushedEntry c4, pushedEntry c3, pushedEntry c2]
        ∧ (pushedEntry c1 ∉ [pushedEntry c2, pushedEntry c3, pushedEntry c4, pushedEntry c5,
              pushedEntry c6] →
            pushedEntry c1 ∉ getRecent (pushAll emptyStorage [c1, c2, c3, c4, c5, c6]))) := by
  have hstep : getRecent (pushAll ls (cs ++ [c]))
      = pushedEntry c :: (getRecent (pushAll ls cs)).take 4 := by
    rw [getRecent_pushAll, List.foldl_append, ← getRecent_pushAll]
    rfl
  have hall : getRecent (pushAll ls (cs ++ [c]))
      = (((cs ++ [c]).map pushedEntry).reverse ++ getRecent ls).take 5 := by
    rw [getRecent_pushAll, foldl_cons_take]
  refine ⟨?_, ?_, hstep, hall, ?_⟩
  · rw [hall, List.length_take]
    exact Nat.min_le_left _ _
  · rw [hstep]
    rfl
  · intro c1 c2 c3 c4 c5 c6
    have h6 : getRecent (pushAll emptyStorage [c1, c2, c3, c4, c5, c6])
        = [pushedEntry c6, pushedEntry c5, pushedEntry c4, pushedEntry c3, pushedEntry c2] := rfl
    refine ⟨h6, fun h => ?_⟩
    rw [h6]
    intro hmem
    apply h
    simp only [List.mem_cons, List.mem_singleton, List.not_mem_nil, or_false] at hmem ⊢
    tauto

/-- Witness of `pushRecent_keeps_five`: six match ends on an empty store. -/
theorem pushRecent_keeps_five_witness :
    (⟨"LOSS", "g1", "t1"⟩ : RecentEntry) ∉ getRecent (pushAll emptyStorage
        [⟨"t1", "LOSS", "g1"⟩, ⟨"t2", "WIN", "g2"⟩, ⟨"t3", "WIN", "g3"⟩, ⟨"t4", "TIE", "g4"⟩,
          ⟨"t5", "LOSS", "g5"⟩, ⟨"t6", "WIN", "g6"⟩]) :=
  ((pushRecent_keeps_five emptyStorage [] ⟨"t1", "LOSS", "g1"⟩).2.2.2.2
      ⟨"t1", "LOSS", "g1"⟩ ⟨"t2", "WIN", "g2"⟩ ⟨"t3", "WIN", "g3"⟩ ⟨"t4", "TIE", "g4"⟩
      ⟨"t5", "LOSS", "g5"⟩ ⟨"t6", "WIN", "g6"⟩).2 (by decide)

/-- C8 (amended).  A `game_over` event handled after a successful logout is
recorded like any other: the best streak is unchanged and no win is ever
counted, but one entry is put in front of the recent results, `TIE` when there
is no winner and `LOSS` otherwise, and in the latter case the streak becomes 0. -/
theorem gameOver_after_logout (now : String) (w : World) (data : GameOver) :
    getNum (handleGameOver now (logout true w) data).localStorage .LS_BEST_STREAK
        = getNum w.localStorage .LS_BEST_STREAK
    ∧ getNum (handleGameOver now (logout true w) data).localStorage .LS_STREAK
        = (if data.winner_id = none then getNum w.localStorage .LS_STREAK else JsNum.ofNat 0)
    ∧ getRecent (handleGameOver now (logout true w) data).localStorage
        = ({ result := if data.winner_id = none then "TIE" else "LOSS"
             extra := scoreLabel (scoreMapping w.isPlayerOne (p1Score data) (p2Score data)).1
                        (scoreMapping w.isPlayerOne (p1Score data) (p2Score data)).2
             time := now } :: getRecent w.localStorage).take 5 := by
  have hu : (logout true w).currentUserId = none := rfl
  have hl : (logout true w).localStorage = w.localStorage := rfl
  have hp : (logout true w).isPlayerOne = w.isPlayerOne := rfl
  by_cases h : data.winner_id = none
  · have ht := streak_tie now (logout true w) data h
    refine ⟨by rw [ht.2, hl], by rw [ht.1, hl, if_pos h], ?_⟩
    rw [getRecent_handleGameOver, hl, hp]
    simp [recordedOutcome, h]
  · have hne : data.winner_id ≠ (logout true w).currentUserId := by
      rw [hu]
      exact h
    have ht := streak_loss now (logout true w) data h hne
    refine ⟨by rw [ht.2, hl], by rw [ht.1, if_neg h], ?_⟩
    rw [getRecent_handleGameOver, hl, hp, hu]
    simp [recordedOutcome, h]

/-- C8 (counterexample).  User 1 holds a streak of 3 and logs out; a `game_over`
event naming user 2 the winner is then handled: the stored streak drops to 0 and
a `LOSS` entry is stored. -/
theorem gameOver_after_logout_counterexample :
    getNum (logout true streakWorld).localStorage .LS_STREAK = JsNum.ofNat 3
    ∧ getRecent (logout true streakWorld).localStorage = []
    ∧ getNum (handleGameOver "t" (logout true streakWorld)
        { final_scores := some { p1 := some 2, p2 := some 1 }, winner_id := some 2 }).localStorage
        .LS_STREAK = JsNum.ofNat 0
    ∧ getRecent (handleGameOver "t" (logout true streakWorld)
        { final_scores := some { p1 := some 2, p2 := some 1 }, winner_id := some 2 }).localStorage
      = [{ result := "LOSS", extra := "Multiplayer (2-1)", time := "t" }] :=
  ⟨rfl, rfl, rfl, rfl⟩

/-! ## Scores -/

/-- C5.  The score board shows, after `score_update` and after `game_over`
alike, the pair given by the mapping of the specification: `(p1, p2)` when
`isPlayerOne` is true, `(p2, p1)` when it is false, `(p1, p2)` when it is
unknown; for `game_over` the slot scores are those of `final_scores`. -/
theorem scores_follow_mapping (now : String) (w : World) (su : ScoreUpdate) (go : GameOver) :
    displayedScores (on_score_update w su)
        = (toString (scoreMapping w.isPlayerOne su.p1 su.p2).1,
            toString (scoreMapping w.isPlayerOne su.p1 su.p2).2)
    ∧ displayedScores (handleGameOver now w go)
        = (toString (scoreMapping w.isPlayerOne (p1Score go) (p2Score go)).1,
            toString (scoreMapping w.isPlayerOne (p1Score go) (p2Score go)).2)
    ∧ (∀ p1 p2 : Int,
        displayedScores (on_score_update { w with isPlayerOne := some true } { p1 := p1, p2 := p2 })
            = (toString p1, toString p2)
        ∧ displayedScores (on_score_update { w with isPlayerOne := some false } { p1 := p1, p2 := p2 })
            = (toString p2, toString p1)
        ∧ displayedScores (on_score_update { w with isPlayerOne := none } { p1 := p1, p2 := p2 })
            = (toString p1, toString p2))
    ∧ (∀ (p1 p2 : Int) (winner : Option UserId),
        displayedScores (handleGameOver now { w with isPlayerOne := some true }
            { final_scores := some { p1 := some p1, p2 := some p2 }, winner_id := winner })
            = (toString p1, toString p2)
        ∧ displayedScores (handleGameOver now { w with isPlayerOne := some false }
            { final_scores := some { p1 := some p1, p2 := some p2 }, winner_id := winner })
            = (toString p2, toString p1)
        ∧ displayedScores (handleGameOver now { w with isPlayerOne := none }
            { final_scores := some { p1 := some p1, p2 := some p2 }, winner_id := winner })
            = (toString p1, toString p2)) := by
  refine ⟨?_, ?_, ?_, ?_⟩
  · rcases w with ⟨so, cr, cu, mt, ipo, ls, dom, em, di, ti, sr, un⟩
    rcases ipo with _ | _ | _ <;> rfl
  · rcases w with ⟨so, cr, cu, mt, ipo, ls, dom, em, di, ti, sr, un⟩
    rcases ipo with _ | _ | _ <;> rfl
  · intro p1 p2
    exact ⟨rfl, rfl, rfl⟩
  · intro p1 p2 winner
    exact ⟨rfl, rfl, rfl⟩

/-! ## Guess history -/

theorem removeExcess_eq_take (fuel : Nat) (rows : List FeedbackRow)
    (h : rows.length ≤ fuel + 6) : removeExcess fuel rows = rows.take 6 := by
  induction fuel generalizing rows with
  | zero =>
    unfold removeExcess
    exact (List.take_of_length_le (by omega)).symm
  | succ n ih =>
    unfold removeExcess
    split
    · rename_i hlt
      rw [ih _ (by rw [List.length_dropLast]; omega), List.dropLast_eq_take, List.take_take]
      congr 1
      omega
    · exact (List.take_of_length_le (by omega)).symm

theorem feedback_displayGuessFeedback (w : World) (data : GuessFeedback) :
    (displayGuessFeedback w data).dom.feedback = (feedbackRow data :: w.dom.feedback).take 6 := by
  have h := removeExcess_eq_take (feedbackRow data :: w.dom.feedback).length
    (feedbackRow data :: w.dom.feedback) (by omega)
  unfold displayGuessFeedback
  cases hs : data.solved
  · simpa using h
  · simpa [showStatus] using h

theorem feedback_feedbackAll (w : World) (evs : List GuessFeedback) :
    (feedbackAll w evs).dom.feedback
      = evs.foldl (fun acc d => (feedbackRow d :: acc).take 6) w.dom.feedback := by
  induction evs generalizing w with
  | nil => rfl
  | cons d ds ih =>
    unfold feedbackAll at ih ⊢
    rw [List.foldl_cons, List.foldl_cons, ih, feedback_displayGuessFeedback]

/-- C6.  After any sequence of `guess_feedback` events, whatever the view held
before, the guess history has at most six rows, the row of the last guess
received is first, behind it come the rows held before that event in their
order, cut from the back, and the whole view is the rows of the events, newest
first, followed by the rows of the start, cut to six. -/
theorem guess_history_bounded (w : World) (evs : List GuessFeedback) (d : GuessFeedback) :
    (feedbackAll w (evs ++ [d])).dom.feedback.length ≤ 6
    ∧ (feedbackAll w (evs ++ [d])).dom.feedback.head? = some (feedbackRow d)
    ∧ (feedbackAll w (evs ++ [d])).dom.feedback
        = feedbackRow d :: (feedbackAll w evs).dom.feedback.take 5
    ∧ (feedbackAll w (evs ++ [d])).dom.feedback
        = (((evs ++ [d]).map feedbackRow).reverse ++ w.dom.feedback).take 6 := by
  have hstep : (feedbackAll w (evs ++ [d])).dom.feedback
      = feedbackRow d :: (feedbackAll w evs).dom.feedback.take 5 := by
    rw [feedback_feedbackAll, List.foldl_append, ← feedback_feedbackAll]
    rfl
  have hall : (feedbackAll w (evs ++ [d])).dom.feedback
      = (((evs ++ [d]).map feedbackRow).reverse ++ w.dom.feedback).take 6 := by
    rw [feedback_feedbackAll, foldl_cons_take]
  refine ⟨?_, ?_, hstep, hall⟩
  · rw [hall, List.length_take]
    exact Nat.min_le_left _ _
  · rw [hstep]
    rfl

/-! ## Session variables -/

/-- C7 (amended).  The function `submitGuess` does not look at `currentRoom`.  With a live
socket and no room set, a well-formed guess still produces one `submit_guess`
event, whose room is null.  No event is produced when the socket is null, and
so none for any input after a successful logout. -/
theorem submitGuess_ignores_room (toUpperCase : String → String)
    (hup : AgreesOnAscii toUpperCase) (w : World) :
    (∀ sock : Nat, w.socket = some sock → w.currentRoom = none →
        validGuess (trim w.dom.guessInputValue) = true →
        produced w (submitGuess toUpperCase w)
          = [ClientEvent.submit_guess none (upperAscii (trim w.dom.guessInputValue))])
    ∧ (w.socket = none → produced w (submitGuess toUpperCase w) = [])
    ∧ (∀ text : String,
        produced (typeGuess (logout true w) text)
          (submitGuess toUpperCase (typeGuess (logout true w) text)) = []) := by
  refine ⟨?_, ?_, ?_⟩
  · intro sock hs hr hv
    rw [← hr]
    exact submitGuess_valid toUpperCase hup w sock hs hv
  · exact submitGuess_no_socket toUpperCase w
  · intro text
    exact submitGuess_no_socket toUpperCase _ rfl

/-- Witness of `submitGuess_ignores_room`: user 1, logged in and not yet in a
match, types `crane`. -/
theorem submitGuess_ignores_room_witness :
    produced (typeGuess (loggedInWorld 1 0) "crane")
        (submitGuess upperAscii (typeGuess (loggedInWorld 1 0) "crane"))
      = [ClientEvent.submit_guess none "CRANE"]
    ∧ produced (typeGuess initialWorld "crane")
        (submitGuess upperAscii (typeGuess initialWorld "crane")) = [] :=
  ⟨(submitGuess_ignores_room upperAscii agreesOnAscii_upperAscii
      (typeGuess (loggedInWorld 1 0) "crane")).1 0 rfl rfl (by decide),
    (submitGuess_ignores_room upperAscii agreesOnAscii_upperAscii
      (typeGuess initialWorld "crane")).2.1 rfl⟩

/-- C7 (counterexample).  User 1 is logged in, no match has been found, so
`currentRoom` is null; the guess `hello` is sent all the same, with room null. -/
theorem submitGuess_without_room_counterexample :
    (typeGuess (loggedInWorld 1 0) "hello").currentRoom = none
    ∧ produced (typeGuess (loggedInWorld 1 0) "hello")
        (submitGuess upperAscii (typeGuess (loggedInWorld 1 0) "hello"))
      = [ClientEvent.submit_guess none "HELLO"] := by
  decide

/-- C9 (amended).  A successful logout disconnects the socket if there is one,
sets `socket`, `currentRoom` and `currentUserId` to null, and leaves
`isPlayerOne` as it was. -/
theorem logout_clears (w : World) :
    (logout true w).socket = none
    ∧ (logout true w).currentRoom = none
    ∧ (logout true w).currentUserId = none
    ∧ (logout true w).isPlayerOne = w.isPlayerOne
    ∧ (logout true w).disconnected = w.disconnected ++ w.socket.toList := by
  refine ⟨rfl, rfl, rfl, rfl, ?_⟩
  rcases w with ⟨so, cr, cu, mt, ipo, ls, dom, em, di, ti, sr, un⟩
  cases so
  · simp [logout, showStatus]
  · simp [logout, showStatus]

/-- C9 (counterexample).  User 1 is player one of a match and logs out:
`isPlayerOne` is still true afterwards. -/
theorem logout_keeps_isPlayerOne_counterexample :
    (logout true inMatchWorld).isPlayerOne = some true := by
  decide

/-- C10 (amended).  After `match_found` the room is the one of the event, and
after a successful logout it is null; `game_over` leaves `currentRoom` as it
was, so the room of the match stays set after the match has ended, and what
`game_over` does is disable the guess input and the submit button. -/
theorem room_lifecycle (now : String) (w : World) (mf : MatchFound) (go : GameOver) :
    (on_match_found w mf).currentRoom = some mf.room
    ∧ (logout true w).currentRoom = none
    ∧ (handleGameOver now w go).currentRoom = w.currentRoom
    ∧ (handleGameOver now (on_match_found w mf) go).currentRoom = some mf.room
    ∧ (logout true (handleGameOver now (on_match_found w mf) go)).currentRoom = none
    ∧ (handleGameOver now w go).dom.guessInputDisabled = true
    ∧ (handleGameOver now w go).dom.submitGuessDisabled = true := by
  have hm : (on_match_found w mf).currentRoom = some mf.room := by
    rcases w with ⟨so, cr, cu, mt, ipo, ls, dom, em, di, ti, sr, un⟩
    cases so <;> rfl
  refine ⟨hm, rfl, rfl, ?_, rfl, rfl, rfl⟩
  rw [← hm]
  rfl

/-- C10 (counterexample).  User 1 gets `match_found` for `room-1`, then
`game_over`: `currentRoom` is still `room-1`. -/
theorem room_survives_game_over_counterexample :
    (handleGameOver "t"
        (on_match_found (loggedInWorld 1 0) { room := "room-1", is_p1 := some true })
        { final_scores := none, winner_id := none }).currentRoom = some "room-1" := by
  decide

end WordleBattle
